import Mathlib

/-!
Shallow embedding of the lark-timesheet-api server (src/index.js, session variant).

The JavaScript runtime values that appear in Bitable cells are modelled by the
inductive type `CellValue` (string, number, array of strings or link objects,
single link object).  JavaScript `undefined` is modelled by `Option`; fallible
remote calls are modelled by `Except String`.  Machine-dependent or
runtime-builtin primitives are taken as parameters:
* `fmtNum : Rat → String` stands for the local-timezone formatting of an
  epoch-millisecond number into a `YYYY-MM-DD` string performed by
  `new Date(val)` in `toDateStr`;
* `hmac : String → String` stands for HMAC-SHA256 (base64url) with the fixed
  server secret, and `decode : String → Option SessionPayload` for
  base64url-decoding plus `JSON.parse` of a token payload;
* `empLookup`, `smsSend` stand for the remote employee lookup and the SMS
  dispatch, each of which can fail (throw).
Timestamps are integers (milliseconds), as in `Date.now()`.
-/

namespace LarkTimesheet

/-! JavaScript string primitives, implemented structurally over the character
list of a string so that every definition evaluates by kernel reduction. -/

/-- Leading and trailing whitespace removal (`String.prototype.trim`). -/
def trimChars (l : List Char) : List Char :=
  ((l.dropWhile Char.isWhitespace).reverse.dropWhile Char.isWhitespace).reverse

def jsTrim (s : String) : String :=
  String.mk (trimChars s.data)

/-- `String.prototype.split` with a one-character separator. -/
def splitChars (sep : Char) : List Char → List (List Char)
  | [] => [[]]
  | c :: rest =>
    if c = sep then [] :: splitChars sep rest
    else
      match splitChars sep rest with
      | [] => [[c]]
      | h :: t => (c :: h) :: t

def splitOnChar (sep : Char) (s : String) : List String :=
  (splitChars sep s.data).map String.mk

/-- Whether the first character of a string is `c`. -/
def headIs (c : Char) (s : String) : Bool :=
  match s.data with
  | x :: _ => x = c
  | [] => false

/-- Lexicographic (code-point) comparison, the JavaScript `<` on strings. -/
def charsLt : List Char → List Char → Bool
  | [], [] => false
  | [], _ :: _ => true
  | _ :: _, [] => false
  | a :: as, b :: bs =>
    if a < b then true
    else if b < a then false
    else charsLt as bs

def strLt (a b : String) : Bool :=
  charsLt a.data b.data

def strLe (a b : String) : Bool :=
  !(strLt b a)

/-- `Array.prototype.join` / `String.prototype.concat` based joining. -/
def joinWith (sep : String) : List String → String
  | [] => ""
  | h :: t => t.foldl (fun acc x => acc ++ sep ++ x) h

/-- An element of an array-valued cell: a plain string or a link object whose
`text` and `name` attributes may each be absent (`none`) or present. -/
inductive CellItem where
  | str (s : String)
  | obj (text nm : Option String)
deriving DecidableEq, Repr

/-- A raw Bitable cell value as seen by the JavaScript code: a string, a
number, an array of items, or a single link object. -/
inductive CellValue where
  | str (s : String)
  | num (q : Rat)
  | arr (items : List CellItem)
  | obj (text nm : Option String)
deriving DecidableEq, Repr

/-- JavaScript truthiness of a cell value: empty strings and the number 0 are
falsy; arrays (even empty) and objects are truthy. -/
def CellValue.truthy : CellValue → Bool
  | CellValue.str s => s ≠ ""
  | CellValue.num q => q ≠ 0
  | CellValue.arr _ => true
  | CellValue.obj _ _ => true

/-- JavaScript `a || b` over possibly-undefined cell values. -/
def jsOr (a b : Option CellValue) : Option CellValue :=
  match a with
  | some v => if v.truthy then some v else b
  | none => b

/-- Property access `fields[key]` on a JS object, `undefined` when absent. -/
def getField (fields : List (String × CellValue)) (k : String) : Option CellValue :=
  (fields.find? (fun kv => kv.1 == k)).map (fun kv => kv.2)

/-- The `addIfGood` closure of `extractTextValues`: trim, keep if non-blank. -/
def addIfGood (acc : List String) (s : String) : List String :=
  if jsTrim s ≠ "" then acc ++ [jsTrim s] else acc

/-- The object branch shared by `extractTextValues`: `if (item.text)
addIfGood(item.text); if (item.name) addIfGood(item.name)`. -/
def addObjTexts (acc : List String) (text nm : Option String) : List String :=
  let acc1 := match text with
    | some t => if t ≠ "" then addIfGood acc t else acc
    | none => acc
  match nm with
  | some n => if n ≠ "" then addIfGood acc1 n else acc1
  | none => acc1

def extractFromItem (acc : List String) : CellItem → List String
  | CellItem.str s => addIfGood acc s
  | CellItem.obj t n => addObjTexts acc t n

/-- `extractTextValues` of src/index.js: flatten a heterogeneous cell value
into the list of trimmed, non-blank strings it contains.  Numbers hit no
branch and give the empty list. -/
def extractTextValues : CellValue → List String
  | CellValue.str s => addIfGood [] s
  | CellValue.arr items => items.foldl extractFromItem []
  | CellValue.obj t n => addObjTexts [] t n
  | CellValue.num _ => []

/-- `extractTextValues` applied to a possibly-undefined value (undefined hits
no branch and gives the empty list). -/
def extractTextValuesOpt : Option CellValue → List String
  | none => []
  | some v => extractTextValues v

/-- JavaScript `Array.prototype.join(", ")` on a raw array (objects display
as `[object Object]`). -/
def jsArrayJoin (items : List CellItem) : String :=
  joinWith ", " (items.map (fun it =>
    match it with
    | CellItem.str s => s
    | CellItem.obj _ _ => "[object Object]"))

/-- The `normalize` closure of `queryTimesheetRecords`: join the extracted
texts when any exist, otherwise join a raw array, map null/undefined to the
empty string, and pass any other value through unchanged. -/
def normalize : Option CellValue → CellValue
  | none => CellValue.str ""
  | some v =>
    let arr := extractTextValues v
    if arr ≠ [] then CellValue.str (joinWith ", " arr)
    else
      match v with
      | CellValue.arr items => CellValue.str (jsArrayJoin items)
      | w => w

/-- The `toDateStr` closure: numbers are formatted through the local calendar
(abstracted as `fmtNum`), strings are truncated to their first ten
characters, anything else gives the empty string. -/
def toDateStr (fmtNum : Rat → String) : Option CellValue → String
  | some (CellValue.num q) => fmtNum q
  | some (CellValue.str s) => String.mk (s.data.take 10)
  | _ => ""

/-- Value of a list of decimal digit characters. -/
def digitsVal (l : List Char) : Nat :=
  l.foldl (fun a c => a * 10 + (c.toNat - 48)) 0

def allDigits (l : List Char) : Bool :=
  l.all Char.isDigit

/-- Decimal part of the JavaScript `Number(string)` conversion: an optional
integer part, an optional fractional part, at least one of the two present.
(The model covers plain decimal literals; `none` plays the role of `NaN`.) -/
def parseUnsigned (t : String) : Option Rat :=
  match splitOnChar '.' t with
  | [ip] =>
    if ip ≠ "" ∧ allDigits ip.toList then some ((digitsVal ip.toList : Rat)) else none
  | [ip, fp] =>
    if (ip ≠ "" ∨ fp ≠ "") ∧ allDigits ip.toList ∧ allDigits fp.toList then
      some ((digitsVal ip.toList : Rat) + (digitsVal fp.toList : Rat) / ((10 : Rat) ^ fp.length))
    else none
  | _ => none

/-- JavaScript `Number(string)`: trimmed empty string is 0, an optional sign
followed by a decimal literal is its value, anything else is `NaN` (`none`). -/
def parseJsNumber (s : String) : Option Rat :=
  let t := jsTrim s
  if t = "" then some 0
  else if headIs '-' t then (parseUnsigned (String.mk (t.data.drop 1))).map (fun q => -q)
  else if headIs '+' t then parseUnsigned (String.mk (t.data.drop 1))
  else parseUnsigned t

/-- JavaScript `Number(v)` on a cell value (`none` = `NaN`): numbers pass
through, strings are parsed, the empty array is 0, a singleton string array
parses its element, other arrays and objects are `NaN`. -/
def jsToNumber : CellValue → Option Rat
  | CellValue.num q => some q
  | CellValue.str s => parseJsNumber s
  | CellValue.arr [] => some 0
  | CellValue.arr [CellItem.str s] => parseJsNumber s
  | CellValue.arr _ => none
  | CellValue.obj _ _ => none

/-- A Bitable record: its `fields` object (`r.fields || {}` makes the absent
case the empty object, so the field list is total). -/
structure Record where
  fields : List (String × CellValue)
deriving DecidableEq, Repr

/-- The output projection of a timesheet record.  `project`, `startTime`,
`endTime` and `person` hold whatever JS value `normalize` returned; `hours`
is a JS number where `none` models `NaN`. -/
structure TimesheetRow where
  date : String
  project : CellValue
  startTime : CellValue
  endTime : CellValue
  person : CellValue
  hours : Option Rat
deriving DecidableEq, Repr

/-- Default of the env-configurable person column name. -/
def defaultPersonField : String := "人员姓名 NameText"

/-- The person-cell fallback chain
`f[PERSON_FIELD] || f["人员姓名 NameText"] || f["人员 Applicant"]`. -/
def personValOf (personField : String) (f : List (String × CellValue)) : Option CellValue :=
  jsOr (getField f personField)
    (jsOr (getField f "人员姓名 NameText") (getField f "人员 Applicant"))

/-- `hours: Number(f["工时"] || 0)`. -/
def hoursOf (f : List (String × CellValue)) : Option Rat :=
  match getField f "工时" with
  | some v => if v.truthy then jsToNumber v else some 0
  | none => some 0

/-- The row projection performed by the final `map` of
`queryTimesheetRecords`. -/
def mkTimesheetRow (fmtNum : Rat → String) (personField : String) (r : Record) : TimesheetRow :=
  ⟨toDateStr fmtNum (getField r.fields "日期 Date"),
   normalize (getField r.fields "项目 Project"),
   normalize (getField r.fields "开工时间 Start Time"),
   normalize (getField r.fields "结束时间 End Time"),
   normalize (personValOf personField r.fields),
   hoursOf r.fields⟩

/-- JavaScript truthiness of a possibly-undefined string. -/
def truthyOptStr : Option String → Bool
  | some s => s ≠ ""
  | none => false

/-- `x || null` on a possibly-undefined string. -/
def jsOrNullStr (a : Option String) : Option String :=
  if truthyOptStr a then a else none

/-- The filter predicate of `queryTimesheetRecords`: drop a record when its
date string is non-empty and outside the supplied range, or when a person
filter is supplied and the extracted names do not contain it. -/
def keepRecord (fmtNum : Rat → String) (personField : String)
    (startStr endStr person : Option String) (r : Record) : Bool :=
  let d := toDateStr fmtNum (getField r.fields "日期 Date")
  if truthyOptStr startStr && !(d == "") && strLt d (startStr.getD "") then false
  else if truthyOptStr endStr && !(d == "") && strLt (endStr.getD "") d then false
  else if truthyOptStr person then
    decide ((person.getD "") ∈ extractTextValuesOpt (personValOf personField r.fields))
  else true

/-- `queryTimesheetRecords` of src/index.js, applied to the already-fetched
record list: normalize the date bounds through `|| null`, filter, project. -/
def queryTimesheetRecords (fmtNum : Rat → String) (personField : String)
    (records : List Record) (startDate endDate person : Option String) : List TimesheetRow :=
  let startStr := jsOrNullStr startDate
  let endStr := jsOrNullStr endDate
  (records.filter (keepRecord fmtNum personField startStr endStr person)).map
    (mkTimesheetRow fmtNum personField)

/-- The decoded JSON payload of a session token; each field may be missing
from the decoded object. -/
structure SessionPayload where
  personName : Option String
  expiresAt : Option Int
deriving DecidableEq, Repr

/-- JavaScript truthiness of a possibly-undefined number. -/
def truthyOptInt : Option Int → Bool
  | some n => n ≠ 0
  | none => false

/-- `parseSessionToken` of src/index.js: reject empty tokens, tokens that do
not split into exactly two dot-separated parts, signature mismatches,
undecodable payloads, payloads with falsy `personName` or `expiresAt`, and
payloads whose expiry has passed; otherwise return the payload. -/
def parseSessionToken (hmac : String → String) (decode : String → Option SessionPayload)
    (now : Int) (token : String) : Option SessionPayload :=
  if token = "" then none
  else
    match splitOnChar '.' token with
    | [payloadB64, sig] =>
      if sig ≠ hmac payloadB64 then none
      else
        match decode payloadB64 with
        | none => none
        | some payload =>
          if ¬ truthyOptStr payload.personName then none
          else if ¬ truthyOptInt payload.expiresAt then none
          else if payload.expiresAt.getD 0 < now then none
          else some payload
    | _ => none

/-- The `effectivePerson` computation of the `/api/timesheet` handler: when a
session token is supplied and parses to a payload with a truthy person name,
that name replaces the client-supplied person parameter. -/
def effectivePerson (hmac : String → String) (decode : String → Option SessionPayload)
    (now : Int) (person : Option String) (sessionToken : Option String) : Option String :=
  if truthyOptStr sessionToken then
    match parseSessionToken hmac decode now (sessionToken.getD "") with
    | some payload => if truthyOptStr payload.personName then payload.personName else person
    | none => person
  else person

/-- The `/api/timesheet` handler: fetch the table (which may fail and yield
the 500 branch), then query with the effective person. -/
def timesheetHandler (fmtNum : Rat → String) (personField : String)
    (hmac : String → String) (decode : String → Option SessionPayload) (now : Int)
    (fetch : Except String (List Record))
    (startDate endDate person sessionToken : Option String) :
    Except String (List TimesheetRow) :=
  match fetch with
  | Except.error e => Except.error e
  | Except.ok records =>
    Except.ok (queryTimesheetRecords fmtNum personField records startDate endDate
      (effectivePerson hmac decode now person sessionToken))

/-- `String(phone).replace(/\D/g, "")`. -/
def digitsOnly (s : String) : String :=
  String.mk (s.toList.filter Char.isDigit)

/-- A stored phone-verification code with its absolute expiry. -/
structure CodeEntry where
  code : String
  expiresAt : Int
deriving DecidableEq, Repr

/-- In-memory `Map` keyed by digits-only phone, as an association list in
insertion order. -/
abbrev CodeStore := List (String × CodeEntry)

/-- `Map.prototype.get`. -/
def mapGet {α : Type} (m : List (String × α)) (k : String) : Option α :=
  (m.find? (fun kv => kv.1 == k)).map (fun kv => kv.2)

/-- `Map.prototype.set`: replace in place when the key exists, append
otherwise. -/
def mapSet {α : Type} : List (String × α) → String → α → List (String × α)
  | [], k, v => [(k, v)]
  | kv :: rest, k, v => if kv.1 == k then (k, v) :: rest else kv :: mapSet rest k v

/-- `Map.prototype.delete`. -/
def mapDelete {α : Type} (m : List (String × α)) (k : String) : List (String × α) :=
  m.filter (fun kv => ¬ kv.1 == k)

/-- `setPhoneCode`: store the code under the digits-only key with a
five-minute expiry. -/
def setPhoneCode (store : CodeStore) (now : Int) (phone code : String) : CodeStore :=
  mapSet store (digitsOnly phone) ⟨code, now + 5 * 60 * 1000⟩

/-- `verifyPhoneCode` of src/index.js, returning the result together with the
updated store: missing entry fails; an expired entry is deleted and fails; a
code mismatch fails; a match deletes the entry and succeeds. -/
def verifyPhoneCode (store : CodeStore) (now : Int) (phone code : String) : Bool × CodeStore :=
  let key := digitsOnly phone
  match mapGet store key with
  | none => (false, store)
  | some item =>
    if item.expiresAt < now then (false, mapDelete store key)
    else if item.code ≠ code then (false, store)
    else (true, mapDelete store key)

/-- Outcome of the `/api/verify_code` handler. -/
inductive VerifyResult where
  | badRequest
  | serverError
  | success (personName : String)
deriving DecidableEq, Repr

/-- The `/api/verify_code` handler: missing phone or code, failed
verification, and unknown employee all give 400; an employee-lookup throw
gives 500; otherwise a session token is issued for the employee name. -/
def verifyCodeHandler (store : CodeStore) (now : Int) (phone code : String)
    (empLookup : String → Except String (Option String)) : VerifyResult × CodeStore :=
  if phone = "" ∨ code = "" then (VerifyResult.badRequest, store)
  else
    let res := verifyPhoneCode store now phone (jsTrim code)
    if res.1 = false then (VerifyResult.badRequest, res.2)
    else
      match empLookup phone with
      | Except.error _ => (VerifyResult.serverError, res.2)
      | Except.ok none => (VerifyResult.badRequest, res.2)
      | Except.ok (some nm) => (VerifyResult.success nm, res.2)

/-- The in-memory cooldown map: digits-only phone to last-send timestamp. -/
abbrev CooldownMap := List (String × Int)

/-- Result object of `canSendNow`. -/
structure ThrottleResult where
  ok : Bool
  waitMs : Int
deriving DecidableEq, Repr

/-- `canSendNow` of src/index.js, returning the result together with the
updated map: inside the window it refuses without touching the map; outside
it records `now` under the digits-only key and allows. -/
def canSendNow (m : CooldownMap) (now : Int) (phone : String) (windowMs : Int) :
    ThrottleResult × CooldownMap :=
  let key := digitsOnly phone
  let last := (mapGet m key).getD 0
  if now - last < windowMs then (⟨false, windowMs - (now - last)⟩, m)
  else (⟨true, 0⟩, mapSet m key now)

/-- `normalizeCanadaPhone`: accept `+1` plus ten digits, ten digits, or `1`
plus ten digits, producing E.164; anything else is rejected. -/
def normalizeCanadaPhone (phone : String) : Option String :=
  if phone = "" then none
  else
    let p := jsTrim phone
    if p.data.length = 12 && headIs '+' p && headIs '1' (String.mk (p.data.drop 1)) &&
        allDigits (p.data.drop 2) then some p
    else if p.data.length = 10 && allDigits p.data then some ("+1" ++ p)
    else if p.data.length = 11 && headIs '1' p && allDigits p.data then some ("+" ++ p)
    else none

/-- Outcome of the `/api/request_code` handler. -/
inductive RequestResult where
  | badRequest
  | tooMany (waitMs : Int)
  | serverError
  | okSent
deriving DecidableEq, Repr

/-- The `/api/request_code` handler: empty phone gives 400; a refused
cooldown gives 429; then the employee lookup (throw gives 500, not found
gives 400), phone-format validation (400), code storage, and the SMS send
(throw gives 500) run in that order.  Note the cooldown map is updated by
`canSendNow` before any of the later checks. -/
def requestCodeHandler (m : CooldownMap) (cs : CodeStore) (now : Int) (rawPhone : String)
    (empLookup : String → Except String (Option String))
    (smsSend : String → Except String Unit) (genCode : String) :
    RequestResult × CooldownMap × CodeStore :=
  let phone := jsTrim rawPhone
  if phone = "" then (RequestResult.badRequest, m, cs)
  else
    let tr := canSendNow m now phone 60000
    if tr.1.ok = false then (RequestResult.tooMany tr.1.waitMs, tr.2, cs)
    else
      match empLookup phone with
      | Except.error _ => (RequestResult.serverError, tr.2, cs)
      | Except.ok none => (RequestResult.badRequest, tr.2, cs)
      | Except.ok (some _) =>
        match normalizeCanadaPhone phone with
        | none => (RequestResult.badRequest, tr.2, cs)
        | some e164 =>
          let cs1 := setPhoneCode cs now phone genCode
          match smsSend e164 with
          | Except.error _ => (RequestResult.serverError, tr.2, cs1)
          | Except.ok _ => (RequestResult.okSent, tr.2, cs1)

/-- The process-wide Lark token cache: `cachedToken` and `tokenExpireAt`. -/
structure TokenCacheState where
  cachedToken : Option String
  tokenExpireAt : Int
deriving DecidableEq, Repr

/-- The body of a token-endpoint response; `expire` may be absent. -/
structure TokenResp where
  code : Int
  msg : String
  tenant_access_token : String
  expire : Option Int
deriving DecidableEq, Repr

/-- `x || d` on a possibly-undefined number. -/
def jsOrIntDefault (a : Option Int) (d : Int) : Int :=
  match a with
  | some n => if n ≠ 0 then n else d
  | none => d

/-- `getTenantAccessToken` of src/index.js as a state transition: return the
cached token while it is truthy and unexpired; otherwise perform one fetch
(the Bool in the result records whether a fetch happened), failing on a
non-zero response code, and cache the new token with its expiry pulled 60
seconds forward. -/
def getTenantAccessToken (st : TokenCacheState) (now : Int) (resp : TokenResp) :
    Except String (String × TokenCacheState × Bool) :=
  if truthyOptStr st.cachedToken ∧ now < st.tokenExpireAt then
    Except.ok (st.cachedToken.getD "", st, false)
  else if resp.code ≠ 0 then
    Except.error ("Failed to get tenant_access_token: " ++ resp.msg)
  else
    let expireSeconds := jsOrIntDefault resp.expire 3600
    Except.ok (resp.tenant_access_token,
      ⟨some resp.tenant_access_token, now + (expireSeconds - 60) * 1000⟩, true)

/-- `Set.prototype.add` under insertion order. -/
def setInsert (s : List String) (x : String) : List String :=
  if x ∈ s then s else s ++ [x]

/-- Collect every name of every record into a `Set`, in insertion order. -/
def collectPersons (l : List (List String)) : List String :=
  l.foldl (fun acc names => names.foldl setInsert acc) []

/-- `Array.prototype.sort()` on strings, modelled as lexicographic
insertion sort. -/
def sortStrings (l : List String) : List String :=
  List.insertionSort (fun a b => a ≤ b) l

/-- The extracted person names of one timesheet record. -/
def personNamesOfTimesheetRecord (personField : String) (r : Record) : List String :=
  extractTextValuesOpt (personValOf personField r.fields)

/-- `queryAllPersonsFromPeopleTable`: `none` when the roster table is not
configured; otherwise the deduplicated, sorted names of the configured name
column, or the fetch failure. -/
def queryAllPersonsFromPeopleTable (configured : Bool)
    (fetch : Except String (List Record)) (nameField : String) :
    Except String (Option (List String)) :=
  if configured = false then Except.ok none
  else
    match fetch with
    | Except.error e => Except.error e
    | Except.ok records =>
      Except.ok (some (sortStrings (collectPersons (records.map (fun r =>
        extractTextValuesOpt (getField r.fields nameField))))))

/-- `queryAllPersonsFromTimesheet`: deduplicated, sorted names collected from
the timesheet person column (with its fallback chain). -/
def queryAllPersonsFromTimesheet (personField : String)
    (fetch : Except String (List Record)) : Except String (List String) :=
  match fetch with
  | Except.error e => Except.error e
  | Except.ok records =>
    Except.ok (sortStrings (collectPersons (records.map
      (personNamesOfTimesheetRecord personField))))

/-- `queryAllPersons`: prefer a non-empty roster-table result; a roster
failure is caught (logged as a warning) and falls through to the timesheet
scan, as does an unconfigured or empty roster. -/
def queryAllPersons (configured : Bool) (peopleFetch tsFetch : Except String (List Record))
    (nameField personField : String) : Except String (List String) :=
  match queryAllPersonsFromPeopleTable configured peopleFetch nameField with
  | Except.ok (some l) =>
    if l ≠ [] then Except.ok l else queryAllPersonsFromTimesheet personField tsFetch
  | Except.ok none => queryAllPersonsFromTimesheet personField tsFetch
  | Except.error _ => queryAllPersonsFromTimesheet personField tsFetch

/-- Response of the `/api/people` handler. -/
inductive PeopleResponse where
  | okData (persons : List String)
  | serverError
deriving DecidableEq, Repr

/-- The `/api/people` handler: 500 only when `queryAllPersons` itself
throws. -/
def peopleHandler (configured : Bool) (peopleFetch tsFetch : Except String (List Record))
    (nameField personField : String) : PeopleResponse :=
  match queryAllPersons configured peopleFetch tsFetch nameField personField with
  | Except.ok l => PeopleResponse.okData l
  | Except.error _ => PeopleResponse.serverError

/-! Helper lemmas. -/

/-- A string that splits on the dot into two parts is not empty. -/
theorem ne_empty_of_splitOnChar_pair (tok pb sg : String)
    (h : splitOnChar '.' tok = [pb, sg]) : tok ≠ "" := by
  intro hh
  subst hh
  simp [splitOnChar, splitChars] at h

/-- Evaluation of `parseSessionToken` on a well-formed token: everything up
to the expiry check passes, so the result depends only on the expiry. -/
theorem parseSessionToken_eq (hmac : String → String)
    (decode : String → Option SessionPayload) (now : Int)
    (tok pb sg nm : String) (e : Int)
    (hsplit : splitOnChar '.' tok = [pb, sg])
    (hsig : sg = hmac pb)
    (hdec : decode pb = some ⟨some nm, some e⟩)
    (hnm : nm ≠ "") (he : e ≠ 0) :
    parseSessionToken hmac decode now tok =
      (if e < now then none else some ⟨some nm, some e⟩) := by
  have htok : tok ≠ "" := ne_empty_of_splitOnChar_pair tok pb sg hsplit
  unfold parseSessionToken
  rw [if_neg htok, hsplit]
  simp only [hdec]
  rw [if_neg (by simp [hsig])]
  simp [truthyOptStr, truthyOptInt, hnm, he]

/-- Claim C1: a session token whose signature verifies and whose embedded
expiry has not passed pins the effective person filter to the embedded
person name, so two timesheet requests differing only in the client-supplied
person parameter yield the same result; once the embedded expiry has passed
the token is treated as absent and the explicit person parameter applies. -/
theorem timesheet_session_token_pins_person
    (hmac : String → String) (decode : String → Option SessionPayload)
    (fmtNum : Rat → String) (personField : String) (now : Int)
    (tok pb sg nm : String) (e : Int)
    (hsplit : splitOnChar '.' tok = [pb, sg])
    (hsig : sg = hmac pb)
    (hdec : decode pb = some ⟨some nm, some e⟩)
    (hnm : nm ≠ "") (he : e ≠ 0) (hnow : now ≤ e) :
    (∀ (fetch : Except String (List Record)) (sd ed p1 p2 : Option String),
      timesheetHandler fmtNum personField hmac decode now fetch sd ed p1 (some tok) =
        timesheetHandler fmtNum personField hmac decode now fetch sd ed p2 (some tok)) ∧
    (∀ p : Option String, effectivePerson hmac decode now p (some tok) = some nm) ∧
    (∀ (now2 : Int) (p : Option String), e < now2 →
      effectivePerson hmac decode now2 p (some tok) = p) := by
  have htok : tok ≠ "" := ne_empty_of_splitOnChar_pair tok pb sg hsplit
  have hparse : parseSessionToken hmac decode now tok = some ⟨some nm, some e⟩ := by
    rw [parseSessionToken_eq hmac decode now tok pb sg nm e hsplit hsig hdec hnm he]
    rw [if_neg (not_lt.mpr hnow)]
  have heff : ∀ p : Option String, effectivePerson hmac decode now p (some tok) = some nm := by
    intro p
    unfold effectivePerson
    simp [truthyOptStr, htok, hparse, hnm]
  refine ⟨?_, heff, ?_⟩
  · intro fetch sd ed p1 p2
    unfold timesheetHandler
    cases fetch with
    | error e => rfl
    | ok records => rw [heff p1, heff p2]
  · intro now2 p hlate
    have hparse2 : parseSessionToken hmac decode now2 tok = none := by
      rw [parseSessionToken_eq hmac decode now2 tok pb sg nm e hsplit hsig hdec hnm he]
      rw [if_pos hlate]
    unfold effectivePerson
    simp [truthyOptStr, htok, hparse2]

/-- Witness for claim C1 at a concrete token, secret, payload and clock. -/
theorem timesheet_session_token_pins_person_witness :
    effectivePerson (fun s => s ++ "!")
      (fun s => if s = "pp" then some ⟨some "Alice", some 100⟩ else none)
      50 (some "Bob") (some "pp.pp!") = some "Alice" ∧
    timesheetHandler (fun _ => "") defaultPersonField (fun s => s ++ "!")
      (fun s => if s = "pp" then some ⟨some "Alice", some 100⟩ else none)
      50 (Except.ok []) none none (some "Bob") (some "pp.pp!") =
      timesheetHandler (fun _ => "") defaultPersonField (fun s => s ++ "!")
      (fun s => if s = "pp" then some ⟨some "Alice", some 100⟩ else none)
      50 (Except.ok []) none none none (some "pp.pp!") ∧
    effectivePerson (fun s => s ++ "!")
      (fun s => if s = "pp" then some ⟨some "Alice", some 100⟩ else none)
      200 (some "Bob") (some "pp.pp!") = some "Bob" := by
  have h := timesheet_session_token_pins_person (fun s => s ++ "!")
    (fun s => if s = "pp" then some ⟨some "Alice", some 100⟩ else none)
    (fun _ => "") defaultPersonField 50 "pp.pp!" "pp" "pp!" "Alice" 100
    (by decide) (by decide) (by decide) (by decide) (by decide) (by decide)
  exact ⟨h.2.1 (some "Bob"),
    h.1 (Except.ok []) none none (some "Bob") none,
    h.2.2 200 (some "Bob") (by decide)⟩

/-- Claim C10: a session token rejected by `parseSessionToken` for any
reason is processed exactly as if no token were supplied: no error is
returned and the explicit person parameter (or none) determines the
filter. -/
theorem timesheet_rejected_token_ignored
    (hmac : String → String) (decode : String → Option SessionPayload)
    (fmtNum : Rat → String) (personField : String) (now : Int) (tok : String)
    (hparse : parseSessionToken hmac decode now tok = none) :
    ∀ (fetch : Except String (List Record)) (sd ed p : Option String),
      timesheetHandler fmtNum personField hmac decode now fetch sd ed p (some tok) =
        timesheetHandler fmtNum personField hmac decode now fetch sd ed p none := by
  intro fetch sd ed p
  have heff : effectivePerson hmac decode now p (some tok) = p := by
    unfold effectivePerson
    by_cases h : tok = ""
    · subst h; simp [truthyOptStr]
    · simp [truthyOptStr, h, hparse]
  have heff2 : effectivePerson hmac decode now p none = p := by
    simp [effectivePerson, truthyOptStr]
  unfold timesheetHandler
  cases fetch with
  | error e => rfl
  | ok records => rw [heff, heff2]

/-- Witness for claim C10 at a concrete malformed token. -/
theorem timesheet_rejected_token_ignored_witness :
    timesheetHandler (fun _ => "") defaultPersonField (fun s => s ++ "!")
      (fun _ => none) 0 (Except.ok []) none none (some "Bob") (some "garbage") =
      timesheetHandler (fun _ => "") defaultPersonField (fun s => s ++ "!")
      (fun _ => none) 0 (Except.ok []) none none (some "Bob") none :=
  timesheet_rejected_token_ignored (fun s => s ++ "!") (fun _ => none)
    (fun _ => "") defaultPersonField 0 "garbage" (by rfl)
    (Except.ok []) none none (some "Bob")

/-- Claim C8: when the roster table is configured but its listing fails, the
failure is caught and the timesheet scan is returned instead; the people
endpoint never surfaces the roster failure. -/
theorem people_roster_failure_not_surfaced :
    ∀ (e : String) (tf : Except String (List Record)) (nameField personField : String),
      queryAllPersons true (Except.error e) tf nameField personField =
        queryAllPersonsFromTimesheet personField tf ∧
      peopleHandler true (Except.error e) tf nameField personField =
        peopleHandler false (Except.error e) tf nameField personField := by
  intro e tf nameField personField
  exact ⟨rfl, rfl⟩

/-- Looking up a key right after deleting it finds nothing. -/
theorem mapGet_mapDelete {α : Type} (m : List (String × α)) (k : String) :
    mapGet (mapDelete m k) k = none := by
  induction m with
  | nil => rfl
  | cons kv rest ih =>
    by_cases h : kv.1 == k
    · simp [mapDelete, mapGet, h]
    · simp [mapDelete, mapGet, List.find?, h]

/-- Claim C2: phone verification codes are single-use.  With an unexpired
stored code, the first verification succeeds and deletes the entry, the
immediate second verification with the same phone and code fails, and the
second `/api/verify_code` request is rejected with 400. -/
theorem verify_code_single_use
    (store : CodeStore) (now : Int) (phone c : String) (exp : Int)
    (hph : phone ≠ "") (hc : c ≠ "") (htrim : jsTrim c = c)
    (hget : mapGet store (digitsOnly phone) = some ⟨c, exp⟩)
    (hexp : ¬ exp < now) :
    (verifyPhoneCode store now phone c).1 = true ∧
    mapGet (verifyPhoneCode store now phone c).2 (digitsOnly phone) = none ∧
    (verifyPhoneCode (verifyPhoneCode store now phone c).2 now phone c).1 = false ∧
    (∀ empLookup : String → Except String (Option String),
      (verifyCodeHandler (verifyPhoneCode store now phone c).2 now phone c empLookup).1 =
        VerifyResult.badRequest) := by
  have h1 : verifyPhoneCode store now phone c =
      (true, mapDelete store (digitsOnly phone)) := by
    simp only [verifyPhoneCode, hget]
    simp [hexp]
  have h2 : mapGet (mapDelete store (digitsOnly phone)) (digitsOnly phone) = none :=
    mapGet_mapDelete store (digitsOnly phone)
  have h3 : verifyPhoneCode (mapDelete store (digitsOnly phone)) now phone c =
      (false, mapDelete store (digitsOnly phone)) := by
    simp only [verifyPhoneCode, h2]
  refine ⟨by rw [h1], by rw [h1]; exact h2, by rw [h1]; rw [h3], ?_⟩
  intro empLookup
  simp only [verifyCodeHandler]
  rw [if_neg (by simp [hph, hc])]
  simp [htrim, h1, h3]

/-- Witness for claim C2 at a concrete store, phone and code. -/
theorem verify_code_single_use_witness :
    (verifyPhoneCode [("123", ⟨"654321", 100⟩)] 50 "12-3" "654321").1 = true ∧
    (verifyCodeHandler (verifyPhoneCode [("123", ⟨"654321", 100⟩)] 50 "12-3" "654321").2
      50 "12-3" "654321" (fun _ => Except.ok (some "Alice"))).1 = VerifyResult.badRequest := by
  have h := verify_code_single_use [("123", ⟨"654321", 100⟩)] 50 "12-3" "654321" 100
    (by decide) (by decide) (by decide) (by decide) (by decide)
  exact ⟨h.1, h.2.2.2 (fun _ => Except.ok (some "Alice"))⟩

/-- Counterexample to claim C3 as stated: with both date bounds supplied, a
record whose date cell is absent passes the filter and is returned with the
empty date string, which is not within the range lexicographically. -/
theorem timesheet_date_range_counterexample :
    (queryTimesheetRecords (fun _ => "") defaultPersonField [⟨[]⟩]
      (some "2025-03-01") (some "2025-03-05") none).map (fun row => row.date) = [""] ∧
    strLe "2025-03-01" "" = false := by
  exact ⟨by decide, by decide⟩

/-- Claim C3 as amended: when both `start_date` and `end_date` are supplied
and non-empty, every returned row either lies within the range under
lexicographic comparison or has the empty date string (produced when the
raw date cell is absent or yields no date text — such rows bypass the range
filter). -/
theorem timesheet_date_range_bounds
    (fmtNum : Rat → String) (personField : String) (records : List Record)
    (st en : String) (person : Option String)
    (hst : st ≠ "") (hen : en ≠ "") :
    ∀ row ∈ queryTimesheetRecords fmtNum personField records (some st) (some en) person,
      row.date = "" ∨ (strLe st row.date = true ∧ strLe row.date en = true) := by
  intro row hrow
  unfold queryTimesheetRecords at hrow
  have hs : jsOrNullStr (some st) = some st := by simp [jsOrNullStr, truthyOptStr, hst]
  have hee : jsOrNullStr (some en) = some en := by simp [jsOrNullStr, truthyOptStr, hen]
  rw [hs, hee] at hrow
  simp only [List.mem_map] at hrow
  obtain ⟨r, hr, hrw⟩ := hrow
  rw [List.mem_filter] at hr
  obtain ⟨-, hkeep⟩ := hr
  have hdate : row.date = toDateStr fmtNum (getField r.fields "日期 Date") := by
    rw [← hrw]; rfl
  simp only [keepRecord] at hkeep
  rw [← hdate] at hkeep
  split at hkeep
  · exact absurd hkeep (by simp)
  case isFalse h1 =>
    split at hkeep
    · exact absurd hkeep (by simp)
    case isFalse h2 =>
      by_cases hdd : row.date = ""
      · exact Or.inl hdd
      · refine Or.inr ⟨?_, ?_⟩
        · have hb : strLt row.date st = false := by
            simp [truthyOptStr, hst, hdd] at h1
            exact h1
          simp [strLe, hb]
        · have hb : strLt en row.date = false := by
            simp [truthyOptStr, hen, hdd] at h2
            exact h2
          simp [strLe, hb]

/-- Witness for the amended claim C3 at a concrete record and range. -/
theorem timesheet_date_range_bounds_witness :
    (mkTimesheetRow (fun _ => "") defaultPersonField
        ⟨[("日期 Date", CellValue.str "2025-03-03")]⟩).date = "" ∨
    (strLe "2025-03-01" (mkTimesheetRow (fun _ => "") defaultPersonField
        ⟨[("日期 Date", CellValue.str "2025-03-03")]⟩).date = true ∧
     strLe (mkTimesheetRow (fun _ => "") defaultPersonField
        ⟨[("日期 Date", CellValue.str "2025-03-03")]⟩).date "2025-03-05" = true) :=
  timesheet_date_range_bounds (fun _ => "") defaultPersonField
    [⟨[("日期 Date", CellValue.str "2025-03-03")]⟩] "2025-03-01" "2025-03-05" none
    (by decide) (by decide)
    (mkTimesheetRow (fun _ => "") defaultPersonField
      ⟨[("日期 Date", CellValue.str "2025-03-03")]⟩)
    (by decide)

/-- Counterexample to claim C4 as stated: a multi-name person cell matching
the filter is returned with the comma-joined person field, which is not
string-equal to the filter. -/
theorem timesheet_person_filter_counterexample :
    (queryTimesheetRecords (fun _ => "") defaultPersonField
      [⟨[("人员姓名 NameText", CellValue.arr [CellItem.str "Alice", CellItem.str "Bob"])]⟩]
      none none (some "Alice")).map (fun row => row.person) =
        [CellValue.str "Alice, Bob"] ∧
    CellValue.str "Alice, Bob" ≠ CellValue.str "Alice" := by
  exact ⟨by decide, by decide⟩

/-- Claim C4 as amended: when a non-empty person filter is supplied, every
returned row has the filter string as an exact member (string equality, no
substring match) of its extracted person-name list, and its displayed person
field is the comma-join of that list — equal to the filter exactly when the
list is the singleton filter. -/
theorem timesheet_person_filter_membership
    (fmtNum : Rat → String) (personField : String) (records : List Record)
    (sd ed : Option String) (p : String) (hp : p ≠ "") :
    ∀ row ∈ queryTimesheetRecords fmtNum personField records sd ed (some p),
      ∃ names : List String, p ∈ names ∧
        row.person = CellValue.str (joinWith ", " names) ∧
        (names = [p] → row.person = CellValue.str p) := by
  intro row hrow
  unfold queryTimesheetRecords at hrow
  simp only [List.mem_map] at hrow
  obtain ⟨r, hr, hrw⟩ := hrow
  rw [List.mem_filter] at hr
  obtain ⟨-, hkeep⟩ := hr
  simp only [keepRecord] at hkeep
  split at hkeep
  · exact absurd hkeep (by simp)
  split at hkeep
  · exact absurd hkeep (by simp)
  rw [if_pos (by simp [truthyOptStr, hp])] at hkeep
  rw [decide_eq_true_iff] at hkeep
  have hperson : row.person = normalize (personValOf personField r.fields) := by
    rw [← hrw]; rfl
  have hkeep2 : p ∈ extractTextValuesOpt (personValOf personField r.fields) := by
    simpa using hkeep
  cases hpv : personValOf personField r.fields with
  | none =>
    rw [hpv] at hkeep2
    simp [extractTextValuesOpt] at hkeep2
  | some v =>
    rw [hpv] at hkeep2
    rw [extractTextValuesOpt] at hkeep2
    have hne : extractTextValues v ≠ [] := by
      intro hh
      rw [hh] at hkeep2
      simp at hkeep2
    refine ⟨extractTextValues v, hkeep2, ?_, ?_⟩
    · rw [hperson, hpv]
      simp [normalize, hne]
    · intro hsingle
      rw [hperson, hpv]
      simp [normalize, hne, hsingle, joinWith]

/-- Witness for the amended claim C4 at a concrete record. -/
theorem timesheet_person_filter_membership_witness :
    ∃ names : List String, "Alice" ∈ names ∧
      (mkTimesheetRow (fun _ => "") defaultPersonField
        ⟨[("人员姓名 NameText", CellValue.str "Alice")]⟩).person =
        CellValue.str (joinWith ", " names) ∧
      (names = ["Alice"] →
        (mkTimesheetRow (fun _ => "") defaultPersonField
          ⟨[("人员姓名 NameText", CellValue.str "Alice")]⟩).person = CellValue.str "Alice") :=
  timesheet_person_filter_membership (fun _ => "") defaultPersonField
    [⟨[("人员姓名 NameText", CellValue.str "Alice")]⟩] none none "Alice" (by decide)
    (mkTimesheetRow (fun _ => "") defaultPersonField
      ⟨[("人员姓名 NameText", CellValue.str "Alice")]⟩)
    (by decide)

/-- Counterexample to claim C5 as stated: a non-numeric string cell such as
`"abc"` produces `NaN` hours (modelled `none`, serialized as JSON null), not
the claimed 0. -/
theorem timesheet_hours_counterexample :
    hoursOf [("工时", CellValue.str "abc")] ≠ some 0 ∧
    (mkTimesheetRow (fun _ => "") defaultPersonField
      ⟨[("工时", CellValue.str "abc")]⟩).hours = none := by
  exact ⟨by decide, by decide⟩

/-- Claim C5 as amended: the hours of a produced row equal the numeric value
of the raw cell for numeric cells and 0 when the cell is absent or falsy,
but a truthy non-numeric string cell yields `NaN` (modelled `none`), not
0. -/
theorem timesheet_hours_amended (fmtNum : Rat → String) (personField : String) :
    (∀ f : List (String × CellValue), getField f "工时" = none → hoursOf f = some 0) ∧
    (∀ (f : List (String × CellValue)) (q : Rat),
      getField f "工时" = some (CellValue.num q) → hoursOf f = some q) ∧
    (∀ f : List (String × CellValue),
      getField f "工时" = some (CellValue.str "abc") → hoursOf f = none) ∧
    (∀ r : Record, (mkTimesheetRow fmtNum personField r).hours = hoursOf r.fields) := by
  refine ⟨?_, ?_, ?_, ?_⟩
  · intro f h
    unfold hoursOf
    rw [h]
  · intro f q h
    unfold hoursOf
    rw [h]
    by_cases hq : q = 0
    · simp [CellValue.truthy, hq]
    · simp [CellValue.truthy, hq, jsToNumber]
  · intro f h
    unfold hoursOf
    rw [h]
    decide
  · intro r
    rfl

/-- Witness for the amended claim C5 at concrete cells. -/
theorem timesheet_hours_amended_witness :
    hoursOf [] = some 0 ∧
    hoursOf [("工时", CellValue.num 5)] = some 5 ∧
    hoursOf [("工时", CellValue.str "abc")] = none := by
  have h := timesheet_hours_amended (fun _ => "") defaultPersonField
  exact ⟨h.1 [] (by decide), h.2.1 [("工时", CellValue.num 5)] 5 (by decide),
    h.2.2.1 [("工时", CellValue.str "abc")] (by decide)⟩

/-- Claim C6: after a refresh at time `T` with `expire = 3600`, the cache
expiry is `T + 3540000` milliseconds, every call strictly before that
instant returns the cached token without refreshing, and any call at or
after it performs exactly one refresh. -/
theorem token_cache_refresh_window
    (st0 : TokenCacheState) (T : Int) (resp : TokenResp) (t : String)
    (hmiss : ¬ (truthyOptStr st0.cachedToken = true ∧ T < st0.tokenExpireAt))
    (hcode : resp.code = 0) (hexp : resp.expire = some 3600)
    (ht : resp.tenant_access_token = t) (htne : t ≠ "") :
    getTenantAccessToken st0 T resp = Except.ok (t, ⟨some t, T + 3540000⟩, true) ∧
    (∀ (now : Int) (resp2 : TokenResp), now < T + 3540000 →
      getTenantAccessToken ⟨some t, T + 3540000⟩ now resp2 =
        Except.ok (t, ⟨some t, T + 3540000⟩, false)) ∧
    (∀ (now : Int) (resp2 : TokenResp), T + 3540000 ≤ now →
      getTenantAccessToken ⟨some t, T + 3540000⟩ now resp2 =
        (if resp2.code ≠ 0 then
          Except.error ("Failed to get tenant_access_token: " ++ resp2.msg)
        else
          Except.ok (resp2.tenant_access_token,
            ⟨some resp2.tenant_access_token,
             now + (jsOrIntDefault resp2.expire 3600 - 60) * 1000⟩, true))) := by
  refine ⟨?_, ?_, ?_⟩
  · unfold getTenantAccessToken
    rw [if_neg hmiss, if_neg (by simp [hcode])]
    rw [hexp, ht]
    norm_num [jsOrIntDefault]
  · intro now resp2 hnow
    unfold getTenantAccessToken
    rw [if_pos ⟨by simp [truthyOptStr, htne], hnow⟩]
    rfl
  · intro now resp2 hnow
    unfold getTenantAccessToken
    rw [if_neg (by
      rintro ⟨-, hlt⟩
      exact absurd hlt (not_lt.mpr hnow))]

/-- Witness for claim C6 at a concrete refresh and two concrete clocks, one
inside and one at the boundary of the refresh window. -/
theorem token_cache_refresh_window_witness :
    getTenantAccessToken ⟨none, 0⟩ 1000 ⟨0, "", "tok", some 3600⟩ =
      Except.ok ("tok", ⟨some "tok", 3541000⟩, true) ∧
    getTenantAccessToken ⟨some "tok", 3541000⟩ 3540999 ⟨0, "", "x", some 3600⟩ =
      Except.ok ("tok", ⟨some "tok", 3541000⟩, false) ∧
    getTenantAccessToken ⟨some "tok", 3541000⟩ 3541000 ⟨0, "", "x", some 3600⟩ =
      Except.ok ("x", ⟨some "x", 7081000⟩, true) := by
  have h := token_cache_refresh_window ⟨none, 0⟩ 1000 ⟨0, "", "tok", some 3600⟩ "tok"
    (by simp [truthyOptStr]) rfl rfl rfl (by decide)
  refine ⟨h.1, ?_, ?_⟩
  · have h2 := h.2.1 3540999 ⟨0, "", "x", some 3600⟩ (by norm_num)
    exact h2
  · exact h.2.2 3541000 ⟨0, "", "x", some 3600⟩ (by norm_num)

/-- Inserting into a duplicate-free set keeps it duplicate-free. -/
theorem setInsert_nodup (s : List String) (x : String) (h : s.Nodup) :
    (setInsert s x).Nodup := by
  unfold setInsert
  split
  · exact h
  case isFalse hx =>
    simp [List.nodup_append, h, hx]

/-- Folding set insertion over any name list keeps the accumulator
duplicate-free. -/
theorem foldl_setInsert_nodup (names : List String) :
    ∀ acc : List String, acc.Nodup → (names.foldl setInsert acc).Nodup := by
  induction names with
  | nil => intro acc h; exact h
  | cons x rest ih =>
    intro acc h
    exact ih (setInsert acc x) (setInsert_nodup acc x h)

/-- The collected person set is duplicate-free. -/
theorem collectPersons_nodup (l : List (List String)) : (collectPersons l).Nodup := by
  unfold collectPersons
  suffices hgen : ∀ acc : List String, acc.Nodup →
      (l.foldl (fun acc names => names.foldl setInsert acc) acc).Nodup by
    exact hgen [] List.nodup_nil
  induction l with
  | nil => intro acc h; exact h
  | cons names rest ih =>
    intro acc h
    exact ih (names.foldl setInsert acc) (foldl_setInsert_nodup names acc h)

/-- Sorting preserves freedom from duplicates. -/
theorem sortStrings_nodup (l : List String) (h : l.Nodup) : (sortStrings l).Nodup :=
  (List.perm_insertionSort (fun a b => a ≤ b) l).nodup_iff.mpr h

/-- The sort output is ascending. -/
theorem sortStrings_sorted (l : List String) :
    (sortStrings l).Sorted (fun a b => a ≤ b) :=
  List.sorted_insertionSort (fun a b => a ≤ b) l

/-- Every successful people-table listing is a sorted deduplication. -/
theorem peopleTable_ok_shape (configured : Bool) (pf : Except String (List Record))
    (nameField : String) (l0 : List String)
    (h : queryAllPersonsFromPeopleTable configured pf nameField = Except.ok (some l0)) :
    ∃ xs, l0 = sortStrings (collectPersons xs) := by
  unfold queryAllPersonsFromPeopleTable at h
  split at h
  · simp at h
  · cases pf with
    | error e => simp at h
    | ok records =>
      simp at h
      exact ⟨_, h.symm⟩

/-- Every successful timesheet-scan listing is a sorted deduplication. -/
theorem timesheetScan_ok_shape (personField : String) (tf : Except String (List Record))
    (l0 : List String)
    (h : queryAllPersonsFromTimesheet personField tf = Except.ok l0) :
    ∃ xs, l0 = sortStrings (collectPersons xs) := by
  unfold queryAllPersonsFromTimesheet at h
  cases tf with
  | error e => simp at h
  | ok records =>
    simp at h
    exact ⟨_, h.symm⟩

/-- Claim C7: every successful person listing is duplicate-free and sorted
ascending, and the computation is deterministic in the backing data. -/
theorem listPersons_nodup_sorted
    (configured : Bool) (pf tf : Except String (List Record))
    (nameField personField : String) (l : List String)
    (h : queryAllPersons configured pf tf nameField personField = Except.ok l) :
    l.Nodup ∧ l.Sorted (fun a b => a ≤ b) ∧
      queryAllPersons configured pf tf nameField personField =
        queryAllPersons configured pf tf nameField personField := by
  have hshape : ∃ xs, l = sortStrings (collectPersons xs) := by
    rcases hpe : queryAllPersonsFromPeopleTable configured pf nameField with e | o
    · have heq : queryAllPersons configured pf tf nameField personField =
          queryAllPersonsFromTimesheet personField tf := by
        unfold queryAllPersons
        rw [hpe]
      rw [heq] at h
      exact timesheetScan_ok_shape personField tf l h
    · cases o with
      | none =>
        have heq : queryAllPersons configured pf tf nameField personField =
            queryAllPersonsFromTimesheet personField tf := by
          unfold queryAllPersons
          rw [hpe]
        rw [heq] at h
        exact timesheetScan_ok_shape personField tf l h
      | some l0 =>
        have heq : queryAllPersons configured pf tf nameField personField =
            (if l0 ≠ [] then Except.ok l0
             else queryAllPersonsFromTimesheet personField tf) := by
          unfold queryAllPersons
          rw [hpe]
        rw [heq] at h
        split at h
        · rw [Except.ok.injEq] at h
          subst h
          exact peopleTable_ok_shape configured pf nameField l0 hpe
        · exact timesheetScan_ok_shape personField tf l h
  obtain ⟨xs, hl⟩ := hshape
  subst hl
  exact ⟨sortStrings_nodup _ (collectPersons_nodup xs), sortStrings_sorted _, rfl⟩

/-- Witness for claim C7 at concrete backing tables. -/
theorem listPersons_nodup_sorted_witness :
    (["Alice"] : List String).Nodup ∧
    (["Alice"] : List String).Sorted (fun a b => a ≤ b) ∧
      queryAllPersons false (Except.ok []) (Except.ok [⟨[("人员姓名 NameText", CellValue.str "Alice")]⟩])
          "" defaultPersonField =
        queryAllPersons false (Except.ok []) (Except.ok [⟨[("人员姓名 NameText", CellValue.str "Alice")]⟩])
          "" defaultPersonField :=
  listPersons_nodup_sorted false (Except.ok [])
    (Except.ok [⟨[("人员姓名 NameText", CellValue.str "Alice")]⟩]) "" defaultPersonField
    ["Alice"] (by rfl)

/-- `Map.prototype.set` followed by a lookup of the same key finds the stored
value. -/
theorem mapGet_mapSet {α : Type} (m : List (String × α)) (k : String) (v : α) :
    mapGet (mapSet m k v) k = some v := by
  induction m with
  | nil => simp [mapSet, mapGet, List.find?]
  | cons kv rest ih =>
    by_cases hk : (kv.1 == k) = true
    · simp [mapSet, hk, mapGet, List.find?]
    · have hkf : (kv.1 == k) = false := by simpa using hk
      simpa [mapSet, hkf, mapGet, List.find?] using ih

/-- When the throttle admits a request, the cooldown map in the handler
result is exactly the map that `canSendNow` wrote, whatever happens later in
the handler. -/
theorem requestCodeHandler_map_eq (m : CooldownMap) (cs : CodeStore) (now : Int)
    (rawPhone : String) (empLookup : String → Except String (Option String))
    (smsSend : String → Except String Unit) (genCode : String)
    (hphone : jsTrim rawPhone ≠ "")
    (hok : (canSendNow m now (jsTrim rawPhone) 60000).1.ok = true) :
    (requestCodeHandler m cs now rawPhone empLookup smsSend genCode).2.1 =
      (canSendNow m now (jsTrim rawPhone) 60000).2 := by
  simp only [requestCodeHandler]
  rw [if_neg hphone]
  rw [if_neg (by simp [hok])]
  rcases he : empLookup (jsTrim rawPhone) with e | o
  · simp [he]
  · cases o with
    | none => simp [he]
    | some nm =>
      rcases hn : normalizeCanadaPhone (jsTrim rawPhone) with _ | e164
      · simp [he, hn]
      · rcases hs : smsSend e164 with e2 | u
        · simp [he, hn, hs]
        · simp [he, hn, hs]

/-- A request refused by the throttle returns 429 with the remaining wait
and leaves both stores untouched. -/
theorem requestCodeHandler_throttled (m : CooldownMap) (cs : CodeStore) (now : Int)
    (rawPhone : String) (empLookup : String → Except String (Option String))
    (smsSend : String → Except String Unit) (genCode : String)
    (hphone : jsTrim rawPhone ≠ "")
    (href : (canSendNow m now (jsTrim rawPhone) 60000).1.ok = false) :
    requestCodeHandler m cs now rawPhone empLookup smsSend genCode =
      (RequestResult.tooMany (canSendNow m now (jsTrim rawPhone) 60000).1.waitMs,
       (canSendNow m now (jsTrim rawPhone) 60000).2, cs) := by
  simp only [requestCodeHandler]
  rw [if_neg hphone]
  rw [if_pos href]

/-- Claim C9: once a non-empty phone passes the cooldown check, the cooldown
timestamp is recorded before the employee lookup, format validation and SMS
send, so whatever those later steps do (including 400 and 500 outcomes), an
immediate retry within the 60-second window is rejected with 429 and leaves
the cooldown map unchanged. -/
theorem request_code_cooldown_recorded
    (m : CooldownMap) (cs : CodeStore) (t : Int) (rawPhone : String)
    (empLookup : String → Except String (Option String))
    (smsSend : String → Except String Unit) (genCode : String)
    (hphone : jsTrim rawPhone ≠ "")
    (hcool : ¬ (t - (mapGet m (digitsOnly (jsTrim rawPhone))).getD 0 < 60000)) :
    mapGet (requestCodeHandler m cs t rawPhone empLookup smsSend genCode).2.1
      (digitsOnly (jsTrim rawPhone)) = some t ∧
    (∀ (t2 : Int) (emp2 : String → Except String (Option String))
        (sms2 : String → Except String Unit) (gen2 : String), t2 - t < 60000 →
      (requestCodeHandler (requestCodeHandler m cs t rawPhone empLookup smsSend genCode).2.1
          (requestCodeHandler m cs t rawPhone empLookup smsSend genCode).2.2
          t2 rawPhone emp2 sms2 gen2).1 = RequestResult.tooMany (60000 - (t2 - t)) ∧
      (requestCodeHandler (requestCodeHandler m cs t rawPhone empLookup smsSend genCode).2.1
          (requestCodeHandler m cs t rawPhone empLookup smsSend genCode).2.2
          t2 rawPhone emp2 sms2 gen2).2.1 =
        (requestCodeHandler m cs t rawPhone empLookup smsSend genCode).2.1) := by
  have hcs : canSendNow m t (jsTrim rawPhone) 60000 =
      (⟨true, 0⟩, mapSet m (digitsOnly (jsTrim rawPhone)) t) := by
    simp only [canSendNow]
    rw [if_neg hcool]
  have hmap : (requestCodeHandler m cs t rawPhone empLookup smsSend genCode).2.1 =
      mapSet m (digitsOnly (jsTrim rawPhone)) t := by
    rw [requestCodeHandler_map_eq m cs t rawPhone empLookup smsSend genCode hphone
      (by rw [hcs])]
    rw [hcs]
  have hget : mapGet (requestCodeHandler m cs t rawPhone empLookup smsSend genCode).2.1
      (digitsOnly (jsTrim rawPhone)) = some t := by
    rw [hmap]
    exact mapGet_mapSet m (digitsOnly (jsTrim rawPhone)) t
  refine ⟨hget, ?_⟩
  intro t2 emp2 sms2 gen2 hwin
  have hcs2 : canSendNow (requestCodeHandler m cs t rawPhone empLookup smsSend genCode).2.1
      t2 (jsTrim rawPhone) 60000 =
      (⟨false, 60000 - (t2 - t)⟩,
       (requestCodeHandler m cs t rawPhone empLookup smsSend genCode).2.1) := by
    simp only [canSendNow, hget]
    rw [if_pos (by simpa using hwin)]
    simp
  have hthrottle := requestCodeHandler_throttled
    (requestCodeHandler m cs t rawPhone empLookup smsSend genCode).2.1
    (requestCodeHandler m cs t rawPhone empLookup smsSend genCode).2.2
    t2 rawPhone emp2 sms2 gen2 hphone (by rw [hcs2])
  rw [hcs2] at hthrottle
  rw [hthrottle]
  exact ⟨rfl, rfl⟩

/-- Witness for claim C9 at a concrete phone and clock, where the first
request fails the employee lookup with 400 yet the retry is throttled. -/
theorem request_code_cooldown_recorded_witness :
    mapGet (requestCodeHandler [] [] 60000 "6041234567"
        (fun _ => Except.ok none) (fun _ => Except.ok ()) "123456").2.1
      (digitsOnly (jsTrim "6041234567")) = some 60000 ∧
    (requestCodeHandler (requestCodeHandler [] [] 60000 "6041234567"
        (fun _ => Except.ok none) (fun _ => Except.ok ()) "123456").2.1
        (requestCodeHandler [] [] 60000 "6041234567"
        (fun _ => Except.ok none) (fun _ => Except.ok ()) "123456").2.2
        60001 "6041234567" (fun _ => Except.ok (some "Alice"))
        (fun _ => Except.ok ()) "654321").1 = RequestResult.tooMany (60000 - (60001 - 60000)) := by
  have h := request_code_cooldown_recorded [] [] 60000 "6041234567"
    (fun _ => Except.ok none) (fun _ => Except.ok ()) "123456" (by decide) (by decide)
  exact ⟨h.1, (h.2 60001 (fun _ => Except.ok (some "Alice"))
    (fun _ => Except.ok ()) "654321" (by decide)).1⟩

end LarkTimesheet
